import Mathlib

/-!
Verification of the precision-escalating predicate engine of this
computational-geometry repository.

The repository's predicate core evaluates exact sign and comparison questions
about points on the unit sphere through a cascade of stages: a native-double
triage stage, an extended-precision triage stage, an exact-arithmetic stage,
and (for some predicates) a symbolic-perturbation tie-break.  The sources in
this snapshot contain the test suites of the predicate core
(s2predicates_test.cc and the s1chord_angle tests) but not the implementation
files themselves, so the definitions below are modelled from the
specification (sections 3, 4.1, 4.2, 4.3, 4.4 and 6) and from the algebra
documented in the test files.  Every exact-stage computation of the engine is
a polynomial sign evaluation over the input coordinates, carried out in exact
rational arithmetic; the definitions are therefore stated over an arbitrary
linearly ordered commutative ring, of which the rationals used by the code
are an instance, and concrete evaluations are carried out over the integers.
-/

namespace S2Pred

/-- Modelled from the spec: a Point is a 3-component vector (data model,
section 3).  Coordinates live in a linearly ordered commutative ring. -/
structure Pt (R : Type) where
  x : R
  y : R
  z : R
deriving DecidableEq

variable {R : Type} [LinearOrderedCommRing R] {α : Type}

/-- Sign of an exactly computed quantity: -1, 0 or +1. -/
def qsign (q : R) : Int :=
  if q < 0 then -1 else if q = 0 then 0 else 1

/-- Dot product of two points. -/
def dot (a b : Pt R) : R := a.x * b.x + a.y * b.y + a.z * b.z

/-- Cross product of two points. -/
def cross (a b : Pt R) : Pt R :=
  ⟨a.y * b.z - a.z * b.y, a.z * b.x - a.x * b.z, a.x * b.y - a.y * b.x⟩

/-- Pointwise negation of a point. -/
instance : Neg (Pt R) := ⟨fun a => ⟨-a.x, -a.y, -a.z⟩⟩

/-- Pointwise difference of two points. -/
def sub (a b : Pt R) : Pt R := ⟨a.x - b.x, a.y - b.y, a.z - b.z⟩

/-- Squared Euclidean norm of a point. -/
def norm2 (a : Pt R) : R := dot a a

/-- Determinant of the 3x3 matrix with rows a, b, c, written as the triple
product a . (b x c).  This is the algebraic core of the orientation
predicate. -/
def det (a b c : Pt R) : R := dot a (cross b c)

/-- Squared chord length between two points; for unit vectors this is the
ChordAngle representation of their angular distance (spec section 3). -/
def chord2 (a b : Pt R) : R := norm2 (sub a b)

/-- Modelled from the spec: the ErrorBoundModel certification (section 4.1).
The approximate evaluation approx computes the exact quantity f up to the
conservative rounding-error bound err on every input. -/
def ErrBounded (f approx err : α → R) : Prop :=
  ∀ t, |approx t - f t| ≤ err t

/-- Modelled from the spec: a triage stage of the PrecisionCascade (section
4.2) returns the sign of its approximate evaluation when the magnitude
exceeds the error bound, and 0 (uncertain) otherwise.  Triage (native double)
and TriageExtended (wider float) are both instances of this definition, with
different approximation and error-bound functions. -/
def triageStage (approx err : α → R) (t : α) : Int :=
  if err t < |approx t| then qsign (approx t) else 0

/-- Modelled from the spec: the exact stage evaluates the algebraic core f in
unbounded-precision arithmetic and returns its true sign (section 4.2). -/
def exactStage (f : α → R) (t : α) : Int := qsign (f t)

/-- A stage is certified when any non-zero answer it returns agrees with the
given exact stage. -/
def Certified (stage exact : α → Int) : Prop :=
  ∀ t, stage t ≠ 0 → stage t = exact t

/-- Modelled from the spec: the top-level cascade runs Triage, TriageExtended
and Exact in order and returns the first non-uncertain result (section
4.2). -/
def topLevelSign (t1 t2 e : α → Int) (t : α) : Int :=
  if t1 t ≠ 0 then t1 t else if t2 t ≠ 0 then t2 t else e t

/-- Modelled from the spec: the tri-state outcome of Voronoi site exclusion
plus the internal escalation sentinel (data model, section 3). -/
inductive Excluded where
  | first
  | second
  | neither
  | uncertain
deriving DecidableEq

/-- Modelled from the spec: the top-level GetVoronoiSiteExclusion cascade runs
its triage stages and its exact stage in order and returns the first
non-uncertain result (sections 4.2 and 4.3). -/
def topVoronoi (t1 t2 e : α → Excluded) (t : α) : Excluded :=
  if t1 t ≠ Excluded.uncertain then t1 t
  else if t2 t ≠ Excluded.uncertain then t2 t
  else e t

/-- Strict lexicographic comparison of points on (x, y, z): the canonical
total order used to sort inputs before symbolic perturbation (spec section
4.4). -/
def pLt (a b : Pt R) : Bool :=
  if a.x < b.x then true
  else if b.x < a.x then false
  else if a.y < b.y then true
  else if b.y < a.y then false
  else decide (a.z < b.z)

/-- One step of a sign cascade: return the sign of q if q is non-zero, and
otherwise fall through to the continuation k.  This mirrors the shape of each
return statement in the symbolic-perturbation determinant sequence. -/
def qsignOr (q : R) (k : Int) : Int :=
  if q = 0 then k else qsign q

/-- Modelled from the spec and the sub-determinant sequence documented in the
test suite: SymbolicallyPerturbedSign.  Given three points that are exactly
coplanar with the origin and already in canonical lexicographic order
a < b < c, it evaluates a fixed sequence of successively simpler
sub-determinants exactly and returns the sign of the first non-zero one,
ending in the constant +1 (spec section 4.4; the determinants are the
matrices M_1 .. M_13 listed in the SymbolicPerturbationCodeCoverage test). -/
def symbolicallyPerturbedSign (a b c : Pt R) : Int :=
  qsignOr (b.x * c.y - b.y * c.x)
    (qsignOr (b.z * c.x - b.x * c.z)
      (qsignOr (b.y * c.z - b.z * c.y)
        (qsignOr (c.x * a.y - c.y * a.x)
          (qsignOr c.x
            (qsignOr (-c.y)
              (qsignOr (c.z * a.x - c.x * a.z)
                (qsignOr c.z
                  (qsignOr (a.x * b.y - a.y * b.x)
                    (qsignOr (-b.x)
                      (qsignOr b.y
                        (qsignOr a.x 1)))))))))))

/-- Shared final step of the exact orientation stage: given the canonically
sorted points and the parity s of the sorting permutation, return the parity
times the sign of the exact determinant, falling back to symbolic
perturbation (when enabled) if the determinant is exactly zero. -/
def exactSignAux (pa pb pc : Pt R) (s : Int) (perturb : Bool) : Int :=
  if det pa pb pc ≠ 0 then s * qsign (det pa pb pc)
  else if perturb then s * symbolicallyPerturbedSign pa pb pc
  else 0

/-- Modelled from the spec: the exact stage of the orientation predicate
(ExactSign).  The three points are sorted into canonical lexicographic order
by three compare-exchange steps whose swaps are tracked in a permutation
parity, the exact determinant sign of the sorted triple is multiplied back by
the parity, and an exact zero falls through to symbolic perturbation when
perturb is set (spec sections 4.2 and 4.4).  The eight branches below are the
three compare-exchange steps written out in full. -/
def exactSign (a b c : Pt R) (perturb : Bool) : Int :=
  if pLt b a then
    if pLt c a then
      if pLt c b then exactSignAux c b a (-1) perturb
      else exactSignAux b c a 1 perturb
    else
      if pLt a b then exactSignAux a b c 1 perturb
      else exactSignAux b a c (-1) perturb
  else
    if pLt c b then
      if pLt c a then exactSignAux c a b 1 perturb
      else exactSignAux a c b (-1) perturb
    else
      if pLt b a then exactSignAux b a c (-1) perturb
      else exactSignAux a b c 1 perturb

/-- Modelled from the spec: the top-level orientation predicate Sign.  The
triage stages agree with the exact stage whenever they are certain (lemma
triageStage_certified), so the value returned by the top level is the value
of the exact stage with symbolic perturbation enabled. -/
def Sign (a b c : Pt R) : Int := exactSign a b c true

/-- Modelled from the spec: a ChordAngle stores the squared chord length
between two unit vectors (sections 3 and 6); sentinels aside, the valid
range of the stored value is 0 to 4. -/
structure ChordAngle (R : Type) where
  length2 : R
deriving DecidableEq

/-- Modelled from the spec: the Straight chord angle (180 degrees), whose
squared chord length is 4. -/
def straight : ChordAngle R := ⟨4⟩

/-- Modelled from the spec and the FromLength2 test expectations: FromLength2
clamps its argument to the upper end of the valid squared-chord range, so
any input above 4 produces the same chord angle as 4 (Straight). -/
def fromLength2 (l : R) : ChordAngle R := ⟨min 4 l⟩

/-- Modelled from the spec: the supplement Straight - r of a chord angle.  In
exact arithmetic the chord of the supplementary angle satisfies
chord2 (pi - theta) = 4 - chord2 theta, so the subtraction is exact. -/
def supp (r : ChordAngle R) : ChordAngle R := ⟨4 - r.length2⟩

/-- Algebraic core of CompareDistance: the sign of chord2(x, y) - r2 decides
whether the distance from x to y is below or above the threshold whose
squared chord length is r2 (spec section 4.3). -/
def cmpDistCore : Pt R × Pt R × R → R :=
  fun p => chord2 p.1 p.2.1 - p.2.2

/-- Modelled from the spec: the top-level CompareDistance cascade over two
given triage stages and the exact stage of its algebraic core. -/
def compareDistanceWith (t1 t2 : Pt R × Pt R × R → Int)
    (x y : Pt R) (r : ChordAngle R) : Int :=
  topLevelSign t1 t2 (exactStage cmpDistCore) (x, y, r.length2)

/-- Algebraic core of CompareEdgeDirections: the sign of the dot product of
the two edge normals a0 x a1 and b0 x b1 (spec section 4.3). -/
def cedCore : Pt R × Pt R × Pt R × Pt R → R :=
  fun p => dot (cross p.1 p.2.1) (cross p.2.2.1 p.2.2.2)

/-- Modelled from the spec: the top-level CompareEdgeDirections cascade over
two given triage stages and the exact stage of its algebraic core. -/
def compareEdgeDirectionsWith (t1 t2 : Pt R × Pt R × Pt R × Pt R → Int)
    (a0 a1 b0 b1 : Pt R) : Int :=
  topLevelSign t1 t2 (exactStage cedCore) (a0, a1, b0, b1)

/-- Algebraic core of SignDotProd: the sign of the dot product of the two
input points (spec section 4.3). -/
def dpCore : Pt R × Pt R → R := fun p => dot p.1 p.2

/-- Modelled from the spec: the top-level SignDotProd cascade over two given
triage stages and the exact stage of its algebraic core.  Unlike the other
predicates there is no symbolic-perturbation fallback: the exact stage is the
last stage (spec sections 4.3 and 4.4). -/
def signDotProdWith (t1 t2 : Pt R × Pt R → Int) (a b : Pt R) : Int :=
  topLevelSign t1 t2 (exactStage dpCore) (a, b)

lemma qsign_of_neg {a : R} (h : a < 0) : qsign a = -1 := by
  simp [qsign, h]

lemma qsign_of_pos {a : R} (h : 0 < a) : qsign a = 1 := by
  unfold qsign
  rw [if_neg (asymm h), if_neg h.ne']

lemma qsign_of_zero {a : R} (h : a = 0) : qsign a = 0 := by
  simp [qsign, h]

lemma qsign_neg (a : R) : qsign (-a) = -qsign a := by
  rcases lt_trichotomy a 0 with h | h | h
  · have h1 : (0 : R) < -a := by linarith
    simp [qsign_of_neg h, qsign_of_pos h1]
  · subst h
    simp [qsign]
  · have h1 : -a < (0 : R) := by linarith
    simp [qsign_of_pos h, qsign_of_neg h1]

lemma qsign_mem (a : R) : qsign a = -1 ∨ qsign a = 0 ∨ qsign a = 1 := by
  unfold qsign
  split_ifs <;> simp

lemma qsign_ne_zero {a : R} (h : a ≠ 0) : qsign a = -1 ∨ qsign a = 1 := by
  rcases lt_trichotomy a 0 with h' | h' | h'
  · exact Or.inl (qsign_of_neg h')
  · exact absurd h' h
  · exact Or.inr (qsign_of_pos h')

/-- If an approximation is within e of the exact value and its own magnitude
exceeds e, then the approximation and the exact value have the same sign.
This is the reasoning behind the ErrorBoundModel (spec section 4.1). -/
lemma qsign_eq_of_close {a b e : R} (hab : |a - b| ≤ e) (he : e < |a|) :
    qsign a = qsign b := by
  have h0 : (0 : R) ≤ e := le_trans (abs_nonneg _) hab
  have habs := abs_le.mp hab
  rcases lt_trichotomy a 0 with ha | ha | ha
  · have hea : e < -a := by rw [abs_of_neg ha] at he; exact he
    have hb : b < 0 := by linarith [habs.1]
    rw [qsign_of_neg ha, qsign_of_neg hb]
  · rw [ha, abs_zero] at he; linarith
  · have hea : e < a := by rw [abs_of_pos ha] at he; exact he
    have hb : 0 < b := by linarith [habs.2]
    rw [qsign_of_pos ha, qsign_of_pos hb]

/-- Any triage stage built on a certified error bound agrees with the exact
stage whenever it returns a non-zero sign. -/
lemma triageStage_certified {f approx err : α → R}
    (hb : ErrBounded f approx err) :
    Certified (triageStage approx err) (exactStage f) := by
  intro t ht
  unfold triageStage at ht ⊢
  by_cases hc : err t < |approx t|
  · rw [if_pos hc]
    exact qsign_eq_of_close (hb t) hc
  · rw [if_neg hc] at ht
    exact absurd rfl ht

/-- When both triage stages are certified, the top-level cascade always
returns the value of the exact stage. -/
lemma topLevelSign_eq_exact {t1 t2 e : α → Int}
    (h1 : Certified t1 e) (h2 : Certified t2 e) (t : α) :
    topLevelSign t1 t2 e t = e t := by
  unfold topLevelSign
  split_ifs with ha hb
  · exact h1 t ha
  · exact h2 t hb
  · rfl

/-- C1: escalation consistency of the precision cascade.  For every predicate
(an arbitrary algebraic core f), every certified-error approximation stage
(of which the native-double Triage and the extended-precision TriageExtended
are the two instances used by the code) and every input, whenever the stage
returns a non-zero sign, the exact-arithmetic stage on the same input returns
the same sign. -/
theorem c1_escalation_consistency (f approx err : α → R)
    (hb : ErrBounded f approx err) :
    ∀ t, triageStage approx err t ≠ 0 →
      triageStage approx err t = exactStage f t :=
  triageStage_certified hb

/-- Witness for C1 at a concrete input: the exact core is the constant 1, the
approximation is exact, the error bound is 0, and the triage stage returns a
non-zero sign that agrees with the exact stage. -/
theorem c1_escalation_consistency_witness :
    triageStage (fun _ : Unit => (1 : Int)) (fun _ => 0) () =
      exactStage (fun _ : Unit => (1 : Int)) () := by
  have hb : ErrBounded (fun _ : Unit => (1 : Int)) (fun _ => 1) (fun _ => 0) := by
    intro t
    cases t
    decide
  exact c1_escalation_consistency _ _ _ hb () (by decide)

lemma qsignOr_mem (q : R) (k : Int) (hk : k = -1 ∨ k = 1) :
    qsignOr q k = -1 ∨ qsignOr q k = 1 := by
  unfold qsignOr
  split_ifs with h
  · exact hk
  · exact qsign_ne_zero h

lemma symbolicallyPerturbedSign_mem (a b c : Pt R) :
    symbolicallyPerturbedSign a b c = -1 ∨ symbolicallyPerturbedSign a b c = 1 := by
  unfold symbolicallyPerturbedSign
  iterate 12 apply qsignOr_mem
  decide

lemma exactSignAux_mem (pa pb pc : Pt R) (s : Int) (perturb : Bool)
    (hs : s = -1 ∨ s = 1) :
    exactSignAux pa pb pc s perturb = -1 ∨ exactSignAux pa pb pc s perturb = 0 ∨
      exactSignAux pa pb pc s perturb = 1 := by
  unfold exactSignAux
  split_ifs with h1 h2
  · rcases hs with rfl | rfl <;> rcases qsign_ne_zero h1 with h | h <;> simp [h]
  · rcases hs with rfl | rfl <;>
      rcases symbolicallyPerturbedSign_mem pa pb pc with h | h <;> simp [h]
  · exact Or.inr (Or.inl rfl)

lemma sign_mem (a b c : Pt R) :
    Sign a b c = -1 ∨ Sign a b c = 0 ∨ Sign a b c = 1 := by
  unfold Sign exactSign
  split_ifs <;> exact exactSignAux_mem _ _ _ _ _ (by decide)

lemma triageStage_mem (approx err : α → R) (t : α) :
    triageStage approx err t = -1 ∨ triageStage approx err t = 0 ∨
      triageStage approx err t = 1 := by
  unfold triageStage
  split_ifs
  · exact qsign_mem _
  · exact Or.inr (Or.inl rfl)

lemma topLevelSign_cases (t1 t2 e : α → Int) (t : α) :
    topLevelSign t1 t2 e t = t1 t ∨ topLevelSign t1 t2 e t = t2 t ∨
      topLevelSign t1 t2 e t = e t := by
  unfold topLevelSign
  split_ifs <;> simp

lemma topVoronoi_ne_uncertain {t1 t2 e : α → Excluded} (t : α)
    (he : e t ≠ Excluded.uncertain) :
    topVoronoi t1 t2 e t ≠ Excluded.uncertain := by
  unfold topVoronoi
  split_ifs with h1 h2
  · exact h1
  · exact h2
  · exact he

lemma excluded_resolve {e : Excluded} (h : e ≠ Excluded.uncertain) :
    e = Excluded.first ∨ e = Excluded.second ∨ e = Excluded.neither := by
  cases e <;> simp_all

/-- C2: totality of the top-level API.  The top-level sign cascade of any
predicate returns a value in the set of definite signs -1, 0, +1 (first
conjunct for the generic cascade built from triage and exact stages, second
conjunct for the orientation predicate including its symbolic-perturbation
fallback), and the top-level Voronoi site exclusion returns FIRST, SECOND or
NEITHER: the internal UNCERTAIN sentinel never escapes, given the spec
guarantee that the exact stage is always certain. -/
theorem c2_totality (f approx1 err1 approx2 err2 : α → R)
    (v1 v2 ve : α → Excluded) (t : α) (hv : ve t ≠ Excluded.uncertain) :
    (topLevelSign (triageStage approx1 err1) (triageStage approx2 err2)
        (exactStage f) t = -1 ∨
      topLevelSign (triageStage approx1 err1) (triageStage approx2 err2)
        (exactStage f) t = 0 ∨
      topLevelSign (triageStage approx1 err1) (triageStage approx2 err2)
        (exactStage f) t = 1) ∧
    (∀ a b c : Pt R, Sign a b c = -1 ∨ Sign a b c = 0 ∨ Sign a b c = 1) ∧
    (topVoronoi v1 v2 ve t = Excluded.first ∨
      topVoronoi v1 v2 ve t = Excluded.second ∨
      topVoronoi v1 v2 ve t = Excluded.neither) := by
  refine ⟨?_, sign_mem, excluded_resolve (topVoronoi_ne_uncertain t hv)⟩
  rcases topLevelSign_cases (triageStage approx1 err1) (triageStage approx2 err2)
      (exactStage f) t with h | h | h <;> rw [h]
  · exact triageStage_mem _ _ _
  · exact triageStage_mem _ _ _
  · exact qsign_mem _

/-- Witness for C2 at a concrete input: with both Voronoi triage stages
uncertain and an exact stage that answers NEITHER, the top level returns a
definite answer. -/
theorem c2_totality_witness :
    topVoronoi (fun _ : Unit => Excluded.uncertain)
        (fun _ => Excluded.uncertain) (fun _ => Excluded.neither) () =
        Excluded.first ∨
      topVoronoi (fun _ : Unit => Excluded.uncertain)
        (fun _ => Excluded.uncertain) (fun _ => Excluded.neither) () =
        Excluded.second ∨
      topVoronoi (fun _ : Unit => Excluded.uncertain)
        (fun _ => Excluded.uncertain) (fun _ => Excluded.neither) () =
        Excluded.neither :=
  (c2_totality (fun _ : Unit => (0 : Int)) (fun _ => 0) (fun _ => 0)
    (fun _ => 0) (fun _ => 0) (fun _ => Excluded.uncertain)
    (fun _ => Excluded.uncertain) (fun _ => Excluded.neither) ()
    (by decide)).2.2

lemma det_swap12 (a b c : Pt R) : det b a c = -det a b c := by
  unfold det dot cross
  ring

lemma det_swap13 (a b c : Pt R) : det c b a = -det a b c := by
  unfold det dot cross
  ring

lemma det_swap23 (a b c : Pt R) : det a c b = -det a b c := by
  unfold det dot cross
  ring

lemma det_cyc (a b c : Pt R) : det b c a = det a b c := by
  unfold det dot cross
  ring

lemma det_cyc2 (a b c : Pt R) : det c a b = det a b c := by
  unfold det dot cross
  ring

lemma exactSignAux_of_ne {pa pb pc : Pt R} {s : Int} {perturb : Bool}
    (hd : det pa pb pc ≠ 0) :
    exactSignAux pa pb pc s perturb = s * qsign (det pa pb pc) := by
  unfold exactSignAux
  rw [if_pos hd]

/-- On a non-degenerate triple the exact orientation stage returns exactly
the sign of the determinant: the sorting parity cancels against the sign
change of the determinant under the sorting permutation. -/
lemma exactSign_eq_qsign_det (a b c : Pt R) (perturb : Bool)
    (h : det a b c ≠ 0) :
    exactSign a b c perturb = qsign (det a b c) := by
  have h12 : det b a c ≠ 0 := by rw [det_swap12 a b c]; exact neg_ne_zero.mpr h
  have h13 : det c b a ≠ 0 := by rw [det_swap13 a b c]; exact neg_ne_zero.mpr h
  have h23 : det a c b ≠ 0 := by rw [det_swap23 a b c]; exact neg_ne_zero.mpr h
  have hc1 : det b c a ≠ 0 := by rw [det_cyc a b c]; exact h
  have hc2 : det c a b ≠ 0 := by rw [det_cyc2 a b c]; exact h
  unfold exactSign
  split_ifs
  · rw [exactSignAux_of_ne h13, det_swap13 a b c, qsign_neg]; ring
  · rw [exactSignAux_of_ne hc1, det_cyc a b c]; ring
  · rw [exactSignAux_of_ne h]; ring
  · rw [exactSignAux_of_ne h12, det_swap12 a b c, qsign_neg]; ring
  · rw [exactSignAux_of_ne hc2, det_cyc2 a b c]; ring
  · rw [exactSignAux_of_ne h23, det_swap23 a b c, qsign_neg]; ring
  · rw [exactSignAux_of_ne h]; ring

lemma sign_eq_qsign_det (a b c : Pt R) (h : det a b c ≠ 0) :
    Sign a b c = qsign (det a b c) :=
  exactSign_eq_qsign_det a b c true h

/-- C3: for every non-degenerate triple of points, the orientation predicate
Sign is antisymmetric under any transposition of its arguments and invariant
under cyclic rotation. -/
theorem c3_sign_symmetry (a b c : Pt R) (h : det a b c ≠ 0) :
    Sign a b c = -Sign c b a ∧ Sign a b c = -Sign b a c ∧
      Sign a b c = -Sign a c b ∧ Sign a b c = Sign b c a ∧
      Sign a b c = Sign c a b := by
  have h12 : det b a c ≠ 0 := by rw [det_swap12 a b c]; exact neg_ne_zero.mpr h
  have h13 : det c b a ≠ 0 := by rw [det_swap13 a b c]; exact neg_ne_zero.mpr h
  have h23 : det a c b ≠ 0 := by rw [det_swap23 a b c]; exact neg_ne_zero.mpr h
  have hc1 : det b c a ≠ 0 := by rw [det_cyc a b c]; exact h
  have hc2 : det c a b ≠ 0 := by rw [det_cyc2 a b c]; exact h
  refine ⟨?_, ?_, ?_, ?_, ?_⟩
  · rw [sign_eq_qsign_det a b c h, sign_eq_qsign_det c b a h13,
      det_swap13 a b c, qsign_neg, neg_neg]
  · rw [sign_eq_qsign_det a b c h, sign_eq_qsign_det b a c h12,
      det_swap12 a b c, qsign_neg, neg_neg]
  · rw [sign_eq_qsign_det a b c h, sign_eq_qsign_det a c b h23,
      det_swap23 a b c, qsign_neg, neg_neg]
  · rw [sign_eq_qsign_det a b c h, sign_eq_qsign_det b c a hc1, det_cyc a b c]
  · rw [sign_eq_qsign_det a b c h, sign_eq_qsign_det c a b hc2, det_cyc2 a b c]

/-- Witness for C3 at a concrete non-degenerate triple: the three coordinate
axes, whose determinant is 1. -/
theorem c3_sign_symmetry_witness :
    det (⟨1, 0, 0⟩ : Pt ℤ) ⟨0, 1, 0⟩ ⟨0, 0, 1⟩ ≠ 0 ∧
      (Sign (⟨1, 0, 0⟩ : Pt ℤ) ⟨0, 1, 0⟩ ⟨0, 0, 1⟩ =
          -Sign (⟨0, 0, 1⟩ : Pt ℤ) ⟨0, 1, 0⟩ ⟨1, 0, 0⟩ ∧
        Sign (⟨1, 0, 0⟩ : Pt ℤ) ⟨0, 1, 0⟩ ⟨0, 0, 1⟩ =
          -Sign (⟨0, 1, 0⟩ : Pt ℤ) ⟨1, 0, 0⟩ ⟨0, 0, 1⟩ ∧
        Sign (⟨1, 0, 0⟩ : Pt ℤ) ⟨0, 1, 0⟩ ⟨0, 0, 1⟩ =
          -Sign (⟨1, 0, 0⟩ : Pt ℤ) ⟨0, 0, 1⟩ ⟨0, 1, 0⟩ ∧
        Sign (⟨1, 0, 0⟩ : Pt ℤ) ⟨0, 1, 0⟩ ⟨0, 0, 1⟩ =
          Sign (⟨0, 1, 0⟩ : Pt ℤ) ⟨0, 0, 1⟩ ⟨1, 0, 0⟩ ∧
        Sign (⟨1, 0, 0⟩ : Pt ℤ) ⟨0, 1, 0⟩ ⟨0, 0, 1⟩ =
          Sign (⟨0, 0, 1⟩ : Pt ℤ) ⟨1, 0, 0⟩ ⟨0, 1, 0⟩) :=
  ⟨by decide, c3_sign_symmetry _ _ _ (by decide)⟩

/-- C4: symbolic-perturbation correctness on Scenario 2.  The three points
a = (-3,-1,0), b = (-2,1,0), c = (1,-2,0) are in canonical lexicographic
order and exactly collinear through the origin: the exact stage yields a
true zero (both as a determinant and as the perturbation-free exact stage),
the symbolic-perturbation stage resolves the first sub-determinant
b0*c1 - b1*c0 = 3 to +1, and the resulting top-level Sign satisfies all the
antisymmetry and cyclic-symmetry identities. -/
theorem c4_symbolic_scenario2 :
    pLt (⟨-3, -1, 0⟩ : Pt ℤ) ⟨-2, 1, 0⟩ = true ∧
      pLt (⟨-2, 1, 0⟩ : Pt ℤ) ⟨1, -2, 0⟩ = true ∧
      det (⟨-3, -1, 0⟩ : Pt ℤ) ⟨-2, 1, 0⟩ ⟨1, -2, 0⟩ = 0 ∧
      exactSign (⟨-3, -1, 0⟩ : Pt ℤ) ⟨-2, 1, 0⟩ ⟨1, -2, 0⟩ false = 0 ∧
      symbolicallyPerturbedSign (⟨-3, -1, 0⟩ : Pt ℤ) ⟨-2, 1, 0⟩ ⟨1, -2, 0⟩ = 1 ∧
      Sign (⟨-3, -1, 0⟩ : Pt ℤ) ⟨-2, 1, 0⟩ ⟨1, -2, 0⟩ = 1 ∧
      Sign (⟨-2, 1, 0⟩ : Pt ℤ) ⟨1, -2, 0⟩ ⟨-3, -1, 0⟩ = 1 ∧
      Sign (⟨1, -2, 0⟩ : Pt ℤ) ⟨-3, -1, 0⟩ ⟨-2, 1, 0⟩ = 1 ∧
      Sign (⟨1, -2, 0⟩ : Pt ℤ) ⟨-2, 1, 0⟩ ⟨-3, -1, 0⟩ = -1 ∧
      Sign (⟨-2, 1, 0⟩ : Pt ℤ) ⟨-3, -1, 0⟩ ⟨1, -2, 0⟩ = -1 ∧
      Sign (⟨-3, -1, 0⟩ : Pt ℤ) ⟨1, -2, 0⟩ ⟨-2, 1, 0⟩ = -1 := by
  decide

lemma negPt_x (a : Pt R) : (-a).x = -a.x := rfl

lemma negPt_y (a : Pt R) : (-a).y = -a.y := rfl

lemma negPt_z (a : Pt R) : (-a).z = -a.z := rfl

lemma chord2_expand (x y : Pt R) :
    chord2 x y = norm2 x + norm2 y - 2 * dot x y := by
  unfold chord2 norm2 sub dot
  ring

lemma chord2_neg_left (x y : Pt R) :
    chord2 (-x) y = norm2 x + norm2 y + 2 * dot x y := by
  unfold chord2 norm2 sub dot
  simp only [negPt_x, negPt_y, negPt_z]
  ring

lemma supp_length2 (r : ChordAngle R) : (supp r).length2 = 4 - r.length2 := rfl

/-- C7: SignDotProd never requires symbolic perturbation.  For certified
triage stages, the top-level SignDotProd always equals the exact-arithmetic
sign of the dot product (the exact stage alone resolves every input, there
being no symbolic fallback), and when the dot product is mathematically zero
(an exact right angle) the top level returns 0 rather than invoking any
tie-break. -/
theorem c7_sign_dot_prod_exact (t1 t2 : Pt R × Pt R → Int)
    (h1 : Certified t1 (exactStage dpCore))
    (h2 : Certified t2 (exactStage dpCore)) :
    (∀ a b : Pt R, signDotProdWith t1 t2 a b = qsign (dot a b)) ∧
      (∀ a b : Pt R, dot a b = 0 → signDotProdWith t1 t2 a b = 0) := by
  constructor
  · intro a b
    unfold signDotProdWith
    rw [topLevelSign_eq_exact h1 h2]
    rfl
  · intro a b hab
    unfold signDotProdWith
    rw [topLevelSign_eq_exact h1 h2]
    show qsign (dot a b) = 0
    exact qsign_of_zero hab

/-- Witness for C7 at the exactly-orthogonal input a = (1,0,0), b = (0,1,0),
with triage stages that are always uncertain: the top level returns 0. -/
theorem c7_sign_dot_prod_exact_witness :
    signDotProdWith (fun _ => 0) (fun _ => 0) (⟨1, 0, 0⟩ : Pt ℤ) ⟨0, 1, 0⟩ = 0 := by
  have hz : Certified (fun _ : Pt ℤ × Pt ℤ => (0 : Int)) (exactStage dpCore) :=
    fun t ht => absurd rfl ht
  exact (c7_sign_dot_prod_exact _ _ hz hz).2 ⟨1, 0, 0⟩ ⟨0, 1, 0⟩ (by decide)

/-- C8: supplementary law for CompareDistance.  For certified triage stages,
unit-length points x and y and any chord-angle threshold r, comparing the
distance from x to y against r and comparing the distance from -x to y
against the exact supplement Straight - r give exactly opposite signs. -/
theorem c8_supplementary_law (t1 t2 : Pt R × Pt R × R → Int)
    (h1 : Certified t1 (exactStage cmpDistCore))
    (h2 : Certified t2 (exactStage cmpDistCore))
    (x y : Pt R) (hx : norm2 x = 1) (hy : norm2 y = 1) (r : ChordAngle R) :
    compareDistanceWith t1 t2 x y r =
      -compareDistanceWith t1 t2 (-x) y (supp r) := by
  unfold compareDistanceWith
  rw [topLevelSign_eq_exact h1 h2, topLevelSign_eq_exact h1 h2]
  show qsign (chord2 x y - r.length2) =
    -qsign (chord2 (-x) y - (supp r).length2)
  have key : chord2 (-x) y - (supp r).length2 = -(chord2 x y - r.length2) := by
    rw [supp_length2, chord2_neg_left x y, chord2_expand x y, hx, hy]
    ring
  rw [key, qsign_neg, neg_neg]

/-- Witness for C8 at x = (1,0,0), y = (0,1,0) and the 60-degree chord angle
with squared chord length 1, with triage stages that are always uncertain. -/
theorem c8_supplementary_law_witness :
    compareDistanceWith (fun _ => 0) (fun _ => 0)
        (⟨1, 0, 0⟩ : Pt ℤ) ⟨0, 1, 0⟩ ⟨1⟩ =
      -compareDistanceWith (fun _ => 0) (fun _ => 0)
        (-(⟨1, 0, 0⟩ : Pt ℤ)) ⟨0, 1, 0⟩ (supp ⟨1⟩) := by
  have hz : Certified (fun _ : Pt ℤ × Pt ℤ × ℤ => (0 : Int))
      (exactStage cmpDistCore) :=
    fun t ht => absurd rfl ht
  exact c8_supplementary_law _ _ hz hz _ _ (by decide) (by decide) _

/-- C9: direction-reversal laws for CompareEdgeDirections.  For certified
triage stages and any two edges, the top-level result is symmetric under
swapping the two edges and antisymmetric under reversing either edge. -/
theorem c9_edge_direction_laws (t1 t2 : Pt R × Pt R × Pt R × Pt R → Int)
    (h1 : Certified t1 (exactStage cedCore))
    (h2 : Certified t2 (exactStage cedCore))
    (a0 a1 b0 b1 : Pt R) :
    compareEdgeDirectionsWith t1 t2 a0 a1 b0 b1 =
        compareEdgeDirectionsWith t1 t2 b0 b1 a0 a1 ∧
      compareEdgeDirectionsWith t1 t2 a0 a1 b0 b1 =
        -compareEdgeDirectionsWith t1 t2 a1 a0 b0 b1 ∧
      compareEdgeDirectionsWith t1 t2 a0 a1 b0 b1 =
        -compareEdgeDirectionsWith t1 t2 a0 a1 b1 b0 := by
  unfold compareEdgeDirectionsWith
  simp only [topLevelSign_eq_exact h1 h2]
  refine ⟨?_, ?_, ?_⟩
  · have e : cedCore (b0, b1, a0, a1) = cedCore (a0, a1, b0, b1) := by
      simp only [cedCore, dot, cross]
      ring
    show qsign (cedCore (a0, a1, b0, b1)) = qsign (cedCore (b0, b1, a0, a1))
    rw [e]
  · have e : cedCore (a1, a0, b0, b1) = -cedCore (a0, a1, b0, b1) := by
      simp only [cedCore, dot, cross]
      ring
    show qsign (cedCore (a0, a1, b0, b1)) = -qsign (cedCore (a1, a0, b0, b1))
    rw [e, qsign_neg, neg_neg]
  · have e : cedCore (a0, a1, b1, b0) = -cedCore (a0, a1, b0, b1) := by
      simp only [cedCore, dot, cross]
      ring
    show qsign (cedCore (a0, a1, b0, b1)) = -qsign (cedCore (a0, a1, b1, b0))
    rw [e, qsign_neg, neg_neg]

/-- Witness for C9 at a concrete pair of edges with triage stages that are
always uncertain: swapping the two edges preserves the result. -/
theorem c9_edge_direction_laws_witness :
    compareEdgeDirectionsWith (fun _ => 0) (fun _ => 0)
        (⟨1, 0, 0⟩ : Pt ℤ) ⟨0, 1, 0⟩ ⟨0, 0, 1⟩ ⟨1, 1, 0⟩ =
      compareEdgeDirectionsWith (fun _ => 0) (fun _ => 0)
        (⟨0, 0, 1⟩ : Pt ℤ) ⟨1, 1, 0⟩ ⟨1, 0, 0⟩ ⟨0, 1, 0⟩ := by
  have hz : Certified (fun _ : Pt ℤ × Pt ℤ × Pt ℤ × Pt ℤ => (0 : Int))
      (exactStage cedCore) :=
    fun t ht => absurd rfl ht
  exact (c9_edge_direction_laws _ _ hz hz _ _ _ _).1

/-- C10: FromLength2 clamps its argument to the valid squared-chord range.
Every input above 4 produces the same chord angle as the input 4, namely
Straight, and for every non-negative input the stored squared chord length
stays within 0 to 4. -/
theorem c10_fromLength2_clamp :
    (∀ l : R, 4 < l → fromLength2 l = fromLength2 4 ∧ fromLength2 l = straight) ∧
      (∀ l : R, 0 ≤ l →
        0 ≤ (fromLength2 l).length2 ∧ (fromLength2 l).length2 ≤ 4) := by
  constructor
  · intro l hl
    have h4 : min (4 : R) l = 4 := min_eq_left hl.le
    constructor
    · show (⟨min 4 l⟩ : ChordAngle R) = ⟨min 4 4⟩
      rw [h4, min_self]
    · show (⟨min 4 l⟩ : ChordAngle R) = ⟨4⟩
      rw [h4]
  · intro l hl
    constructor
    · show (0 : R) ≤ min 4 l
      exact le_min (by norm_num) hl
    · show min (4 : R) l ≤ 4
      exact min_le_left _ _

/-- Witness for C10 at the concrete input 5: FromLength2 gives the same
chord angle as the input 4, which is Straight. -/
theorem c10_fromLength2_clamp_witness :
    fromLength2 (5 : ℤ) = fromLength2 4 ∧ fromLength2 (5 : ℤ) = straight :=
  (@c10_fromLength2_clamp ℤ _).1 5 (by decide)

end S2Pred
